import Mathlib

/-!
Verification of the pricing calculator and synthetic data generator of the
metal-sheets dashboard (src/streamlit_app_2.py).

The two functions under study are:

  def calculate_price(base_cost, margin, volume_discount=0):
      return base_cost / (1 - margin) * (1 - volume_discount)

  def generate_fake_data(days=365):
      end_date = datetime.now()
      start_date = end_date - timedelta(days=days-1)
      date_range = pd.date_range(start=start_date, end=end_date, freq='D')
      data = {
          'Date': date_range,
          'Steel_Cost': np.random.uniform(0.5, 1.0, days) + np.sin(np.arange(days) * 2 * np.pi / 365) * 0.1,
          'Aluminum_Cost': np.random.uniform(1.0, 1.5, days) + np.sin(np.arange(days) * 2 * np.pi / 365) * 0.15,
          'Fiberglass_Cost': np.random.uniform(0.3, 0.6, days) + np.sin(np.arange(days) * 2 * np.pi / 365) * 0.05,
          'Labor_Rate': np.random.uniform(20, 30, days) + np.cumsum(np.random.normal(0, 0.01, days)),
          'Electricity_Cost': np.random.uniform(0.1, 0.2, days) + np.sin(np.arange(days) * 2 * np.pi / 365) * 0.02,
          'Order_Volume': np.random.randint(50, 500, days) + np.sin(np.arange(days) * 2 * np.pi / 365) * 100
      }
      return pd.DataFrame(data)

Embedding choices:
* Python floats are embedded as exact rationals (ℚ); the arithmetic of the
  formulas is exact, matching the spec's "within floating-point tolerance"
  reading of equalities.
* Python scalar division raises ZeroDivisionError on a zero denominator, so
  `calculate_price` is embedded as an `Except` value that errors exactly when
  the denominator `1 - margin` is zero (the spec's DomainError).
* `np.random.uniform(a, b, n)` / `np.random.randint(a, b, n)` raise ValueError
  for a negative size `n` and produce an empty array for `n = 0`; the random
  draws themselves are modelled as explicit streams carried by a `RandSource`
  record, with the numpy range guarantees (uniform in [a, b), randint in
  [a, b)) expressed by the `RandSource.Valid` predicate.
* `np.sin(i * 2 * np.pi / 365)` is a transcendental-library call; it is
  modelled as an abstract stream `Env.sinSeq : ℕ → ℚ` (value of the sine at
  day index i), with the mathematical guarantee |sin| ≤ 1 expressed by
  `Env.SinBounded`.
* `datetime.now()` is the abstract day number `Env.now`; `pd.date_range`
  entries are day numbers, one per calendar day.
-/

/-- Results of the embedded fallible functions can be compared by evaluation. -/
instance {e a : Type} [DecidableEq e] [DecidableEq a] : DecidableEq (Except e a) := fun x y =>
  match x, y with
  | .ok u, .ok v =>
    if h : u = v then .isTrue (by rw [h]) else
      .isFalse (by intro hc; exact h (Except.ok.inj hc))
  | .error u, .error v =>
    if h : u = v then .isTrue (by rw [h]) else
      .isFalse (by intro hc; exact h (Except.error.inj hc))
  | .ok _, .error _ => .isFalse (by intro hc; exact Except.noConfusion hc)
  | .error _, .ok _ => .isFalse (by intro hc; exact Except.noConfusion hc)

/-- Error raised by the pricing calculator: Python's ZeroDivisionError on a
zero denominator, the spec's DomainError. -/
inductive PriceError where
  | domainError
deriving DecidableEq, Repr

/-- Embedding of `calculate_price(base_cost, margin, volume_discount)`:
`base_cost / (1 - margin) * (1 - volume_discount)`, raising on a zero
denominator exactly as Python scalar division does. -/
def calculate_price (base_cost margin volume_discount : ℚ) : Except PriceError ℚ :=
  if 1 - margin = 0 then .error .domainError
  else .ok (base_cost / (1 - margin) * (1 - volume_discount))

/-- On a nonzero denominator (margin ≠ 1) the calculator returns the formula
value. Shared unfolding lemma. -/
theorem calculate_price_of_ne (base_cost margin volume_discount : ℚ)
    (hm : margin ≠ 1) :
    calculate_price base_cost margin volume_discount =
      .ok (base_cost / (1 - margin) * (1 - volume_discount)) := by
  unfold calculate_price
  rw [if_neg (sub_ne_zero.mpr (Ne.symm hm))]

/-- With margin = 1 the denominator is zero and the calculator errors.
Shared unfolding lemma. -/
theorem calculate_price_of_one (base_cost volume_discount : ℚ) :
    calculate_price base_cost 1 volume_discount = .error .domainError := by
  unfold calculate_price
  rw [if_pos (by norm_num)]

/-- C1: for every base_cost c, margin m ≠ 1 and volume_discount vd,
calculate_price c m vd = c / (1 - m) * (1 - vd); for m < 1 the round-trip
price * (1 - m) = c holds at vd = 0; and concretely
calculate_price 10 0.3 0 = 10 / 0.7 = 100/7. -/
theorem C1_price_formula (c m vd : ℚ) (hm : m ≠ 1) :
    calculate_price c m vd = .ok (c / (1 - m) * (1 - vd)) ∧
    (m < 1 → ∀ p : ℚ, calculate_price c m 0 = .ok p → p * (1 - m) = c) ∧
    calculate_price 10 (3/10) 0 = .ok (10 / (7/10)) := by
  refine ⟨calculate_price_of_ne c m vd hm, ?_, ?_⟩
  · intro hlt p hp
    rw [calculate_price_of_ne c m 0 hm] at hp
    have hne : (1 : ℚ) - m ≠ 0 := sub_ne_zero.mpr (Ne.symm hm)
    have := Except.ok.inj hp
    subst this
    field_simp
  · rw [calculate_price_of_ne 10 (3/10) 0 (by norm_num)]
    norm_num

/-- Witness for C1 at c = 10, m = 3/10, vd = 0. -/
theorem C1_price_formula_witness :
    calculate_price 10 (3/10) 0 = .ok (10 / (1 - 3/10) * (1 - 0)) :=
  (C1_price_formula 10 (3/10) 0 (by norm_num)).1

/-- C2 counterexample: at margin = 2 > 1 the calculator does NOT signal an
error; it returns the numeric value -10 for base_cost 10, refuting the claim
that every margin ≥ 1 raises a DomainError. -/
theorem C2_counterexample :
    calculate_price 10 2 0 = .ok (-10) := by
  rw [calculate_price_of_ne 10 2 0 (by norm_num)]
  norm_num

/-- C2 amended: the calculator errors exactly at margin = 1; for margin > 1 it
returns the numeric formula value, which is strictly negative for positive
base_cost and volume_discount < 1. -/
theorem C2_margin_error_behavior (c vd m : ℚ) :
    calculate_price c 1 vd = .error .domainError ∧
    (1 < m → calculate_price c m vd = .ok (c / (1 - m) * (1 - vd))) ∧
    (1 < m → 0 < c → vd < 1 →
      ∀ p : ℚ, calculate_price c m vd = .ok p → p < 0) := by
  refine ⟨calculate_price_of_one c vd, ?_, ?_⟩
  · intro hm
    exact calculate_price_of_ne c m vd (by linarith)
  · intro hm hc hvd p hp
    rw [calculate_price_of_ne c m vd (by linarith)] at hp
    have := Except.ok.inj hp
    subst this
    have h1 : (1 : ℚ) - m < 0 := by linarith
    have h2 : (0 : ℚ) < 1 - vd := by linarith
    have h3 : c / (1 - m) < 0 := div_neg_of_pos_of_neg hc h1
    exact mul_neg_of_neg_of_pos h3 h2

/-- Witness for C2 amended at c = 10, m = 2, vd = 0. -/
theorem C2_margin_error_behavior_witness :
    calculate_price 10 1 0 = .error .domainError ∧
    calculate_price 10 2 0 = .ok (10 / (1 - 2) * (1 - 0)) :=
  ⟨(C2_margin_error_behavior 10 0 2).1,
   (C2_margin_error_behavior 10 0 2).2.1 (by norm_num)⟩

/-- The explicit random streams consumed by `generate_fake_data`: one value
per day index for each numpy sampling call. `laborN` are the normal(0, 0.01)
increments feeding `np.cumsum`. -/
structure RandSource where
  steelU : ℕ → ℚ
  alumU : ℕ → ℚ
  fiberU : ℕ → ℚ
  laborU : ℕ → ℚ
  laborN : ℕ → ℚ
  elecU : ℕ → ℚ
  volR : ℕ → ℤ

/-- The numpy range guarantees on the sampled streams: `np.random.uniform(a, b)`
yields values in [a, b) and `np.random.randint(a, b)` integers in [a, b).
The normal increments `laborN` are unbounded. -/
def RandSource.Valid (rng : RandSource) : Prop :=
  ∀ i : ℕ,
    (1/2 ≤ rng.steelU i ∧ rng.steelU i < 1) ∧
    (1 ≤ rng.alumU i ∧ rng.alumU i < 3/2) ∧
    (3/10 ≤ rng.fiberU i ∧ rng.fiberU i < 3/5) ∧
    (20 ≤ rng.laborU i ∧ rng.laborU i < 30) ∧
    (1/10 ≤ rng.elecU i ∧ rng.elecU i < 1/5) ∧
    (50 ≤ rng.volR i ∧ rng.volR i < 500)

/-- The ambient environment of a `generate_fake_data` call: the current day
number (`datetime.now()`) and the sine table, `sinSeq i` standing for
`np.sin(i * 2 * np.pi / 365)`. -/
structure Env where
  now : ℤ
  sinSeq : ℕ → ℚ

/-- The mathematical guarantee |sin x| ≤ 1 on the sine table. -/
def Env.SinBounded (env : Env) : Prop :=
  ∀ i : ℕ, -1 ≤ env.sinSeq i ∧ env.sinSeq i ≤ 1

/-- Partial sums of a stream including the current index: `cumsum f i` is the
i-th entry of `np.cumsum` applied to the stream `f`. -/
def cumsum (f : ℕ → ℚ) : ℕ → ℚ
  | 0 => f 0
  | i + 1 => cumsum f i + f (i + 1)

/-- `cumsum` agrees with the closed-form sum over indices 0..i. -/
theorem cumsum_eq_sum (f : ℕ → ℚ) (i : ℕ) :
    cumsum f i = ∑ j in Finset.range (i + 1), f j := by
  induction i with
  | zero => simp [cumsum]
  | succ n ih => rw [cumsum, ih, Finset.sum_range_succ _ (n + 1)]

/-- One row of the generated DataFrame: the six metric columns plus the date,
as built for day index i by `generate_fake_data`. -/
structure DayRecord where
  date : ℤ
  steel_cost : ℚ
  aluminum_cost : ℚ
  fiberglass_cost : ℚ
  labor_rate : ℚ
  electricity_cost : ℚ
  order_volume : ℚ
deriving DecidableEq, Repr

/-- The row of the generated DataFrame at day index i: dates run from
`now - (days - 1)` to `now`, and each metric is its uniform/integer draw plus
its seasonal or cumulative term, exactly as in the source dict literal. -/
def mkRecord (env : Env) (rng : RandSource) (days : ℤ) (i : ℕ) : DayRecord where
  date := env.now - (days - 1) + i
  steel_cost := rng.steelU i + env.sinSeq i * (1/10)
  aluminum_cost := rng.alumU i + env.sinSeq i * (15/100)
  fiberglass_cost := rng.fiberU i + env.sinSeq i * (5/100)
  labor_rate := rng.laborU i + cumsum rng.laborN i
  electricity_cost := rng.elecU i + env.sinSeq i * (2/100)
  order_volume := (rng.volR i : ℚ) + env.sinSeq i * 100

/-- Error raised by `generate_fake_data`: numpy's ValueError
("negative dimensions are not allowed") when the requested array size is
negative, the spec's ValidationError kind. -/
inductive GenError where
  | valueError
deriving DecidableEq, Repr

/-- Embedding of `generate_fake_data(days)`. For days < 0 the first numpy
sampling call (`np.random.uniform(0.5, 1.0, days)`) raises ValueError; for
days ≥ 0 the function builds one row per day index 0..days-1 (for days = 0
all arrays and the date range are empty and an empty frame is returned). -/
def generate_fake_data (days : ℤ) (env : Env) (rng : RandSource) :
    Except GenError (List DayRecord) :=
  if days < 0 then .error .valueError
  else .ok ((List.range days.toNat).map (mkRecord env rng days))

/-- For days ≥ 0 the generator returns the mapped row list. Shared unfolding
lemma. -/
theorem generate_fake_data_of_nonneg (days : ℤ) (hd : 0 ≤ days)
    (env : Env) (rng : RandSource) :
    generate_fake_data days env rng =
      .ok ((List.range days.toNat).map (mkRecord env rng days)) := by
  unfold generate_fake_data
  rw [if_neg (not_lt.mpr hd)]

/-- A successful generator run yields rows `mkRecord env rng days i` with one
row per i < days.toNat. Shared extraction lemma. -/
theorem generate_fake_data_get (days : ℤ) (env : Env) (rng : RandSource)
    (rs : List DayRecord) (h : generate_fake_data days env rng = .ok rs) :
    rs.length = days.toNat ∧
    ∀ i : Fin rs.length, rs.get i = mkRecord env rng days i.1 := by
  have hd : ¬ days < 0 := by
    intro hlt
    unfold generate_fake_data at h
    rw [if_pos hlt] at h
    exact Except.noConfusion h
  rw [generate_fake_data_of_nonneg days (not_lt.mp hd) env rng] at h
  have hrs := (Except.ok.inj h).symm
  subst hrs
  constructor
  · simp
  · intro i
    simp [List.get_eq_getElem]

/-- A concrete random source with all streams constant and inside the numpy
ranges. -/
def rng0 : RandSource where
  steelU := fun _ => 3/4
  alumU := fun _ => 5/4
  fiberU := fun _ => 2/5
  laborU := fun _ => 25
  laborN := fun _ => 0
  elecU := fun _ => 3/20
  volR := fun _ => 50

/-- `rng0` satisfies the numpy range guarantees. -/
theorem rng0_valid : rng0.Valid := by
  intro i
  refine ⟨⟨?_, ?_⟩, ⟨?_, ?_⟩, ⟨?_, ?_⟩, ⟨?_, ?_⟩, ⟨?_, ?_⟩, ⟨?_, ?_⟩⟩ <;> norm_num [rng0]

/-- A concrete environment: today is day 0 and the sine table is identically
zero. -/
def env0 : Env where
  now := 0
  sinSeq := fun _ => 0

/-- C3 counterexample: `generate_fake_data 0` does NOT signal an error — it
returns an empty series — refuting the claim that every days ≤ 0 is rejected
with a ValidationError. -/
theorem C3_counterexample :
    generate_fake_data 0 env0 rng0 = .ok [] := by
  rw [generate_fake_data_of_nonneg 0 (by norm_num) env0 rng0]
  rfl

/-- C3 amended: the generator errors (numpy ValueError, the ValidationError
kind) exactly when days < 0, and this is its only error condition; days = 0
returns an empty series rather than an error. -/
theorem C3_error_iff (days : ℤ) (env : Env) (rng : RandSource) :
    (days < 0 → generate_fake_data days env rng = .error .valueError) ∧
    (0 ≤ days →
      generate_fake_data days env rng =
        .ok ((List.range days.toNat).map (mkRecord env rng days))) ∧
    generate_fake_data 0 env rng = .ok [] := by
  refine ⟨?_, ?_, ?_⟩
  · intro hlt
    unfold generate_fake_data
    rw [if_pos hlt]
  · intro hd
    exact generate_fake_data_of_nonneg days hd env rng
  · rw [generate_fake_data_of_nonneg 0 (by norm_num) env rng]
    rfl

/-- Witness for C3 amended at days = -1 and days = 0. -/
theorem C3_error_iff_witness :
    generate_fake_data (-1) env0 rng0 = .error .valueError ∧
    generate_fake_data 0 env0 rng0 = .ok [] :=
  ⟨(C3_error_iff (-1) env0 rng0).1 (by norm_num),
   (C3_error_iff 0 env0 rng0).2.2⟩

/-- C4: for days > 0, a successful run returns exactly `days` rows; the date
of row i is `now - (days - 1) + i`, so dates are strictly increasing,
contiguous (consecutive rows differ by one day), oldest first, and the last
row's date is `now`. -/
theorem C4_series_shape (days : ℤ) (hd : 0 < days) (env : Env)
    (rng : RandSource) (rs : List DayRecord)
    (h : generate_fake_data days env rng = .ok rs) :
    (rs.length : ℤ) = days ∧
    (∀ i : Fin rs.length, (rs.get i).date = env.now - (days - 1) + i.1) ∧
    (∀ i j : Fin rs.length, i.1 < j.1 → (rs.get i).date < (rs.get j).date) ∧
    (∀ i : Fin rs.length, ∀ hj : i.1 + 1 < rs.length,
      (rs.get ⟨i.1 + 1, hj⟩).date = (rs.get i).date + 1) ∧
    (∀ h0 : 0 < rs.length,
      (rs.get ⟨rs.length - 1, by omega⟩).date = env.now) := by
  obtain ⟨hlen, hget⟩ := generate_fake_data_get days env rng rs h
  have hlenZ : (rs.length : ℤ) = days := by
    rw [hlen]
    exact Int.toNat_of_nonneg (le_of_lt hd)
  have hdate : ∀ i : Fin rs.length, (rs.get i).date = env.now - (days - 1) + i.1 := by
    intro i
    rw [hget i]
    rfl
  refine ⟨hlenZ, hdate, ?_, ?_, ?_⟩
  · intro i j hij
    rw [hdate i, hdate j]
    omega
  · intro i hj
    rw [hdate i, hdate ⟨i.1 + 1, hj⟩]
    push_cast
    ring
  · intro h0
    rw [hdate ⟨rs.length - 1, by omega⟩]
    have : ((rs.length - 1 : ℕ) : ℤ) = days - 1 := by omega
    rw [this]
    ring

/-- Witness for C4 at days = 2 with the concrete environment and source. -/
theorem C4_series_shape_witness :
    (((List.range (2:ℤ).toNat).map (mkRecord env0 rng0 2)).length : ℤ) = 2 :=
  (C4_series_shape 2 (by norm_num) env0 rng0 _
    (generate_fake_data_of_nonneg 2 (by norm_num) env0 rng0)).1

/-- C5: at every day index i of a successful run with a range-valid random
source, each metric equals its per-day draw plus its seasonal or cumulative
term with the source amplitudes and ranges: steel draw in [1/2, 1) plus
(1/10)·sin, aluminum [1, 3/2) plus (15/100)·sin, fiberglass [3/10, 3/5) plus
(5/100)·sin, electricity [1/10, 1/5) plus (2/100)·sin, labor base [20, 30)
plus the sum of the normal increments through day i, and order volume an
integer draw in [50, 500) plus 100·sin. -/
theorem C5_record_formulas (days : ℤ) (env : Env) (rng : RandSource)
    (hr : rng.Valid) (rs : List DayRecord)
    (h : generate_fake_data days env rng = .ok rs) (i : Fin rs.length) :
    ((rs.get i).steel_cost = rng.steelU i.1 + env.sinSeq i.1 * (1/10) ∧
      1/2 ≤ rng.steelU i.1 ∧ rng.steelU i.1 < 1) ∧
    ((rs.get i).aluminum_cost = rng.alumU i.1 + env.sinSeq i.1 * (15/100) ∧
      1 ≤ rng.alumU i.1 ∧ rng.alumU i.1 < 3/2) ∧
    ((rs.get i).fiberglass_cost = rng.fiberU i.1 + env.sinSeq i.1 * (5/100) ∧
      3/10 ≤ rng.fiberU i.1 ∧ rng.fiberU i.1 < 3/5) ∧
    ((rs.get i).electricity_cost = rng.elecU i.1 + env.sinSeq i.1 * (2/100) ∧
      1/10 ≤ rng.elecU i.1 ∧ rng.elecU i.1 < 1/5) ∧
    ((rs.get i).labor_rate =
        rng.laborU i.1 + ∑ j in Finset.range (i.1 + 1), rng.laborN j ∧
      20 ≤ rng.laborU i.1 ∧ rng.laborU i.1 < 30) ∧
    ((rs.get i).order_volume = (rng.volR i.1 : ℚ) + env.sinSeq i.1 * 100 ∧
      50 ≤ rng.volR i.1 ∧ rng.volR i.1 < 500) := by
  obtain ⟨hlen, hget⟩ := generate_fake_data_get days env rng rs h
  obtain ⟨hs, ha, hf, hl, he, hv⟩ := hr i.1
  rw [hget i]
  refine ⟨⟨rfl, hs⟩, ⟨rfl, ha⟩, ⟨rfl, hf⟩, ⟨rfl, he⟩, ⟨?_, hl⟩, ⟨rfl, hv⟩⟩
  show rng.laborU i.1 + cumsum rng.laborN i.1 = _
  rw [cumsum_eq_sum]

/-- Witness for C5 at days = 1 with the concrete environment and source. -/
theorem C5_record_formulas_witness :
    (((List.range (1:ℤ).toNat).map (mkRecord env0 rng0 1)).get ⟨0, by simp⟩).steel_cost
      = rng0.steelU 0 + env0.sinSeq 0 * (1/10) :=
  (C5_record_formulas 1 env0 rng0 rng0_valid _
    (generate_fake_data_of_nonneg 1 (by norm_num) env0 rng0) ⟨0, by simp⟩).1.1

/-- C6: for positive base cost, margin in [0, 1) and volume_discount in
[0, 1]: the discounted price never exceeds the undiscounted one; the price is
monotone (non-decreasing) in base cost and in margin, and strictly increasing
in both whenever the discount is strictly below 1 (at discount exactly 1 the
price is identically 0, so strictness needs vd < 1). -/
theorem C6_monotonicity (c m vd c1 c2 m1 m2 : ℚ)
    (hc : 0 < c) (hm0 : 0 ≤ m) (hm1 : m < 1) (hv0 : 0 ≤ vd) (hv1 : vd ≤ 1) :
    (∀ p p0 : ℚ, calculate_price c m vd = .ok p →
      calculate_price c m 0 = .ok p0 → p ≤ p0) ∧
    (c1 ≤ c2 → ∀ p1 p2 : ℚ, calculate_price c1 m vd = .ok p1 →
      calculate_price c2 m vd = .ok p2 → p1 ≤ p2) ∧
    (c1 < c2 → vd < 1 → ∀ p1 p2 : ℚ, calculate_price c1 m vd = .ok p1 →
      calculate_price c2 m vd = .ok p2 → p1 < p2) ∧
    (m1 ≤ m2 → m2 < 1 → ∀ p1 p2 : ℚ, calculate_price c m1 vd = .ok p1 →
      calculate_price c m2 vd = .ok p2 → p1 ≤ p2) ∧
    (m1 < m2 → m2 < 1 → vd < 1 → ∀ p1 p2 : ℚ, calculate_price c m1 vd = .ok p1 →
      calculate_price c m2 vd = .ok p2 → p1 < p2) := by
  have h1m : (0 : ℚ) < 1 - m := by linarith
  refine ⟨?_, ?_, ?_, ?_, ?_⟩
  · intro p p0 hp hp0
    rw [calculate_price_of_ne c m vd (by linarith)] at hp
    rw [calculate_price_of_ne c m 0 (by linarith)] at hp0
    have := Except.ok.inj hp
    subst this
    have := Except.ok.inj hp0
    subst this
    have hk : 0 ≤ c / (1 - m) := le_of_lt (div_pos hc h1m)
    exact mul_le_mul_of_nonneg_left (by linarith) hk
  · intro h12 p1 p2 hp1 hp2
    rw [calculate_price_of_ne c1 m vd (by linarith)] at hp1
    rw [calculate_price_of_ne c2 m vd (by linarith)] at hp2
    have := Except.ok.inj hp1
    subst this
    have := Except.ok.inj hp2
    subst this
    have base : c1 / (1 - m) ≤ c2 / (1 - m) := by
      rw [div_le_div_iff h1m h1m]
      nlinarith
    exact mul_le_mul_of_nonneg_right base (by linarith)
  · intro h12 hvd p1 p2 hp1 hp2
    rw [calculate_price_of_ne c1 m vd (by linarith)] at hp1
    rw [calculate_price_of_ne c2 m vd (by linarith)] at hp2
    have := Except.ok.inj hp1
    subst this
    have := Except.ok.inj hp2
    subst this
    have base : c1 / (1 - m) < c2 / (1 - m) := by
      rw [div_lt_div_iff h1m h1m]
      nlinarith
    exact mul_lt_mul_of_pos_right base (by linarith)
  · intro h12 hm2 p1 p2 hp1 hp2
    have h1m1 : (0 : ℚ) < 1 - m1 := by linarith
    have h1m2 : (0 : ℚ) < 1 - m2 := by linarith
    rw [calculate_price_of_ne c m1 vd (by linarith)] at hp1
    rw [calculate_price_of_ne c m2 vd (by linarith)] at hp2
    have := Except.ok.inj hp1
    subst this
    have := Except.ok.inj hp2
    subst this
    have base : c / (1 - m1) ≤ c / (1 - m2) := by
      rw [div_le_div_iff h1m1 h1m2]
      nlinarith
    exact mul_le_mul_of_nonneg_right base (by linarith)
  · intro h12 hm2 hvd p1 p2 hp1 hp2
    have h1m1 : (0 : ℚ) < 1 - m1 := by linarith
    have h1m2 : (0 : ℚ) < 1 - m2 := by linarith
    rw [calculate_price_of_ne c m1 vd (by linarith)] at hp1
    rw [calculate_price_of_ne c m2 vd (by linarith)] at hp2
    have := Except.ok.inj hp1
    subst this
    have := Except.ok.inj hp2
    subst this
    have base : c / (1 - m1) < c / (1 - m2) := by
      rw [div_lt_div_iff h1m1 h1m2]
      nlinarith
    exact mul_lt_mul_of_pos_right base (by linarith)

/-- Witness for C6 at c = 20, m = 1/10 vs m = 1/2, vd = 0: the price rises
from 20 / (9/10) to 20 / (1/2). -/
theorem C6_monotonicity_witness :
    20 / (1 - 1/10) * (1 - 0) < (20 : ℚ) / (1 - 1/2) * (1 - 0) :=
  (C6_monotonicity 20 (1/10) 0 20 20 (1/10) (1/2) (by norm_num) (by norm_num)
      (by norm_num) (by norm_num) (by norm_num)).2.2.2.2
    (by norm_num) (by norm_num) (by norm_num) _ _
    (calculate_price_of_ne 20 (1/10) 0 (by norm_num))
    (calculate_price_of_ne 20 (1/2) 0 (by norm_num))

/-- C7 counterexample: at base_cost 1, margin 0 and volume_discount 1 (an
allowed input: vd ∈ [0,1]) the calculator returns 0, which is not strictly
positive, refuting the claim that the result is always positive on that
input domain. -/
theorem C7_counterexample :
    calculate_price 1 0 1 = .ok 0 := by
  rw [calculate_price_of_ne 1 0 1 (by norm_num)]
  norm_num

/-- C7 amended: for positive base cost, margin in [0, 1) and volume_discount
in [0, 1], the price is non-negative; it is strictly positive exactly when
the discount is below 1 (at vd = 1 the price is 0). -/
theorem C7_price_positive (c m vd : ℚ) (hc : 0 < c) (hm0 : 0 ≤ m)
    (hm1 : m < 1) (hv0 : 0 ≤ vd) (hv1 : vd ≤ 1) (p : ℚ)
    (h : calculate_price c m vd = .ok p) :
    0 ≤ p ∧ (vd < 1 → 0 < p) ∧ (vd = 1 → p = 0) := by
  have h1m : (0 : ℚ) < 1 - m := by linarith
  rw [calculate_price_of_ne c m vd (by linarith)] at h
  have := Except.ok.inj h
  subst this
  refine ⟨?_, ?_, ?_⟩
  · exact mul_nonneg (le_of_lt (div_pos hc h1m)) (by linarith)
  · intro hvd
    exact mul_pos (div_pos hc h1m) (by linarith)
  · intro hvd
    subst hvd
    ring

/-- Witness for C7 amended at c = 1, m = 0, vd = 1/2. -/
theorem C7_price_positive_witness :
    0 ≤ (1 : ℚ) / (1 - 0) * (1 - 1/2) :=
  (C7_price_positive 1 0 (1/2) (by norm_num) (by norm_num) (by norm_num)
    (by norm_num) (by norm_num) _
    (calculate_price_of_ne 1 0 (1/2) (by norm_num))).1

/-- A random source identical to `rng0` except that the first normal
increment is -100: an extreme but possible value of the unbounded normal
draws. -/
def rngNeg : RandSource :=
  { rng0 with laborN := fun _ => -100 }

/-- `rngNeg` satisfies the numpy range guarantees (the normal stream is
unconstrained). -/
theorem rngNeg_valid : rngNeg.Valid := by
  intro i
  refine ⟨⟨?_, ?_⟩, ⟨?_, ?_⟩, ⟨?_, ?_⟩, ⟨?_, ?_⟩, ⟨?_, ?_⟩, ⟨?_, ?_⟩⟩ <;>
    norm_num [rngNeg, rng0]

/-- C8 counterexample: with a range-valid random source whose first normal
increment is -100, the first generated record has labor_rate = 25 - 100 = -75
< 0, refuting the claim that labor_rate is strictly positive for every value
of the random source (the normal increments are unbounded). -/
theorem C8_counterexample :
    rngNeg.Valid ∧
    generate_fake_data 1 env0 rngNeg =
      .ok [{ date := 0, steel_cost := 3/4, aluminum_cost := 5/4,
             fiberglass_cost := 2/5, labor_rate := -75,
             electricity_cost := 3/20, order_volume := 50 }] ∧
    (-75 : ℚ) < 0 := by
  refine ⟨rngNeg_valid, ?_, by norm_num⟩
  rw [generate_fake_data_of_nonneg 1 (by norm_num) env0 rngNeg]
  norm_num [Int.toNat_one, List.range_succ, List.range_zero, mkRecord, env0, rngNeg, rng0, cumsum]

/-- C8 amended: with a range-valid source and the sine bound, the four
seasonal cost metrics are strictly positive in every record of a successful
run; labor_rate is strictly positive provided the cumulative normal drift up
through that day exceeds -20 (it is NOT positive for arbitrary values of the
unbounded normal increments). -/
theorem C8_cost_positivity (days : ℤ) (env : Env) (hs : env.SinBounded)
    (rng : RandSource) (hr : rng.Valid) (rs : List DayRecord)
    (h : generate_fake_data days env rng = .ok rs) (i : Fin rs.length) :
    0 < (rs.get i).steel_cost ∧
    0 < (rs.get i).aluminum_cost ∧
    0 < (rs.get i).fiberglass_cost ∧
    0 < (rs.get i).electricity_cost ∧
    (-20 < cumsum rng.laborN i.1 → 0 < (rs.get i).labor_rate) := by
  obtain ⟨hlen, hget⟩ := generate_fake_data_get days env rng rs h
  obtain ⟨hsl, hsu⟩ := hs i.1
  obtain ⟨hstl, halum, hfib, hlab, helec, hvol⟩ := hr i.1
  rw [hget i]
  simp only [mkRecord]
  refine ⟨by nlinarith [hstl.1], by nlinarith [halum.1], by nlinarith [hfib.1],
    by nlinarith [helec.1], ?_⟩
  intro hdrift
  nlinarith [hlab.1]

/-- Witness for C8 amended at days = 1 with the concrete environment and
source (zero drift). -/
theorem C8_cost_positivity_witness :
    0 < (((List.range (1:ℤ).toNat).map (mkRecord env0 rng0 1)).get
      ⟨0, by simp⟩).steel_cost :=
  (C8_cost_positivity 1 env0 (fun i => by norm_num [env0]) rng0 rng0_valid _
    (generate_fake_data_of_nonneg 1 (by norm_num) env0 rng0) ⟨0, by simp⟩).1

/-- An environment whose sine table is the constant -9/10, a value the real
sine does attain up to rounding near day index 274 of a 365-day cycle
(sin(2π·274/365) ≈ -0.99997, and the sine sweeps all of [-1, 1] over a full
period). -/
def envNeg : Env where
  now := 0
  sinSeq := fun _ => -(9/10)

/-- `envNeg` satisfies the sine bound. -/
theorem envNeg_sin_bounded : envNeg.SinBounded := by
  intro i
  norm_num [envNeg]

/-- C9 counterexample: with a range-valid source drawing the minimum integer
50 and the seasonal term at -9/10, the first generated record has
order_volume = 50 - 90 = -40 < 0, refuting the claim that order_volume is
always non-negative. -/
theorem C9_counterexample :
    envNeg.SinBounded ∧ rng0.Valid ∧
    generate_fake_data 1 envNeg rng0 =
      .ok [{ date := 0, steel_cost := 33/50, aluminum_cost := 223/200,
             fiberglass_cost := 71/200, labor_rate := 25,
             electricity_cost := 33/250, order_volume := -40 }] ∧
    (-40 : ℚ) < 0 := by
  refine ⟨envNeg_sin_bounded, rng0_valid, ?_, by norm_num⟩
  rw [generate_fake_data_of_nonneg 1 (by norm_num) envNeg rng0]
  norm_num [Int.toNat_one, List.range_succ, List.range_zero, mkRecord, envNeg, rng0, cumsum]

/-- C9 amended: order_volume is bounded below by -50 (integer draw ≥ 50 plus
a seasonal term ≥ -100) and can be negative; it is non-negative whenever the
seasonal sine value of that day is at least -1/2. -/
theorem C9_volume_bounds (days : ℤ) (env : Env) (hs : env.SinBounded)
    (rng : RandSource) (hr : rng.Valid) (rs : List DayRecord)
    (h : generate_fake_data days env rng = .ok rs) (i : Fin rs.length) :
    -50 ≤ (rs.get i).order_volume ∧
    (-(1/2) ≤ env.sinSeq i.1 → 0 ≤ (rs.get i).order_volume) := by
  obtain ⟨hlen, hget⟩ := generate_fake_data_get days env rng rs h
  obtain ⟨hsl, hsu⟩ := hs i.1
  have hvol := (hr i.1).2.2.2.2.2
  have hvolQ : (50 : ℚ) ≤ (rng.volR i.1 : ℚ) := by exact_mod_cast hvol.1
  rw [hget i]
  simp only [mkRecord]
  constructor
  · nlinarith
  · intro hhalf
    nlinarith

/-- Witness for C9 amended at days = 1 with the concrete environment and
source. -/
theorem C9_volume_bounds_witness :
    -50 ≤ (((List.range (1:ℤ).toNat).map (mkRecord env0 rng0 1)).get
      ⟨0, by simp⟩).order_volume :=
  (C9_volume_bounds 1 env0 (fun i => by norm_num [env0]) rng0 rng0_valid _
    (generate_fake_data_of_nonneg 1 (by norm_num) env0 rng0) ⟨0, by simp⟩).1

/-- C10: the calculator is additive in its base_cost argument — for margin
≠ 1 the price of a summed base cost is the sum of the prices, the property
the cost-sensitivity surface relies on when pricing material + labor +
overhead sums. -/
theorem C10_additive_in_base_cost (c1 c2 m vd : ℚ) (hm : m ≠ 1)
    (p1 p2 p12 : ℚ) (h1 : calculate_price c1 m vd = .ok p1)
    (h2 : calculate_price c2 m vd = .ok p2)
    (h12 : calculate_price (c1 + c2) m vd = .ok p12) :
    p12 = p1 + p2 := by
  rw [calculate_price_of_ne c1 m vd hm] at h1
  rw [calculate_price_of_ne c2 m vd hm] at h2
  rw [calculate_price_of_ne (c1 + c2) m vd hm] at h12
  have := Except.ok.inj h1
  subst this
  have := Except.ok.inj h2
  subst this
  have := Except.ok.inj h12
  subst this
  rw [add_div, add_mul]

/-- Witness for C10 at c1 = c2 = 1, m = 1/2, vd = 0. -/
theorem C10_additive_in_base_cost_witness :
    ((1 : ℚ) + 1) / (1 - 1/2) * (1 - 0) =
      (1 : ℚ) / (1 - 1/2) * (1 - 0) + (1 : ℚ) / (1 - 1/2) * (1 - 0) :=
  C10_additive_in_base_cost 1 1 (1/2) 0 (by norm_num) _ _ _
    (calculate_price_of_ne 1 (1/2) 0 (by norm_num))
    (calculate_price_of_ne 1 (1/2) 0 (by norm_num))
    (calculate_price_of_ne (1 + 1) (1/2) 0 (by norm_num))
